import Mathlib

/-!
Verification development for the Swarm-Oracle agent swarm
(`src/agents`): a shallow embedding, in Lean 4, of the deliberation
(consensus / dispute-resolution) algorithms, the execution-agent risk
logic, the base-agent memory operations, and the coordinator registry,
translated from the TypeScript/JavaScript source.  Numeric values are
modelled by `ℚ` (the source uses IEEE doubles only on small decimal
constants and exact counts, so rational arithmetic is exact here);
JavaScript `undefined`-able fields are modelled by `Option`;
code that can throw is modelled in `Except String`.
-/

namespace SwarmOracle

/-- The three prediction directions used throughout the swarm. -/
inductive Direction where
  | bullish
  | bearish
  | neutral
deriving DecidableEq

/-- The nested `prediction` object carried by an analyst prediction:
`DeliberationAgent.analyzePredictions` reads `prediction.prediction.direction`
and `prediction.prediction.strength` (each possibly absent). -/
structure PredictionPayload where
  direction : Option Direction
  strength : Option ℚ
deriving DecidableEq

/-- One per-analyst prediction as consumed by the Deliberation agent:
`{agentId, prediction?, confidence?}`. -/
structure AnalystPrediction where
  agentId : String
  prediction : Option PredictionPayload
  confidence : Option ℚ
deriving DecidableEq

/-- The `directions` tally object `{bullish: 0, bearish: 0, neutral: 0}`
built by `DeliberationAgent.analyzePredictions`. -/
structure DirectionCounts where
  bullish : ℕ
  bearish : ℕ
  neutral : ℕ
deriving DecidableEq

namespace DirectionCounts

/-- Look up the tally of one direction (`directions[d]`). -/
def get (c : DirectionCounts) : Direction → ℕ
  | .bullish => c.bullish
  | .bearish => c.bearish
  | .neutral => c.neutral

/-- `directions[d]++`. -/
def incr (c : DirectionCounts) : Direction → DirectionCounts
  | .bullish => { c with bullish := c.bullish + 1 }
  | .bearish => { c with bearish := c.bearish + 1 }
  | .neutral => { c with neutral := c.neutral + 1 }

end DirectionCounts

/-- Result of `DeliberationAgent.analyzePredictions`.  `averageStrength`
and `averageConfidence` are rational divisions; the JavaScript `NaN`
produced when the corresponding list is empty is outside the modelled
domain (every theorem below assumes at least one prediction). -/
structure PredictionAnalysis where
  totalPredictions : ℕ
  directions : DirectionCounts
  averageStrength : ℚ
  averageConfidence : ℚ
deriving DecidableEq

/-- `DeliberationAgent.analyzePredictions`: tally direction votes of
predictions that carry a `prediction.direction`, collect strengths
(default `0.5`) for those, and confidences (default `0.5`) for all. -/
def analyzePredictions (predictions : List AnalystPrediction) : PredictionAnalysis :=
  let step := fun (acc : DirectionCounts × List ℚ × List ℚ) (p : AnalystPrediction) =>
    let (dirs, strengths, confidences) := acc
    let (dirs, strengths) :=
      match p.prediction with
      | some payload =>
        match payload.direction with
        | some d => (dirs.incr d, strengths ++ [payload.strength.getD (1/2)])
        | none => (dirs, strengths)
      | none => (dirs, strengths)
    (dirs, strengths, confidences ++ [p.confidence.getD (1/2)])
  let acc := predictions.foldl step (⟨0, 0, 0⟩, [], [])
  { totalPredictions := predictions.length
    directions := acc.1
    averageStrength := acc.2.1.sum / acc.2.1.length
    averageConfidence := acc.2.2.sum / acc.2.2.length }

/-- The consensus record returned by `DeliberationAgent.calculateConsensus`. -/
structure ConsensusRecord where
  hasConsensus : Bool
  direction : Direction
  strength : ℚ
  threshold : ℚ
  supportingAgents : ℚ
  averageConfidence : ℚ
deriving DecidableEq

/-- `Object.entries(directions).reduce((a, b) => directions[a[0]] > directions[b[0]] ? a : b)`:
the entries iterate in insertion order `bullish, bearish, neutral`, and the
reduction keeps the accumulator only on a strictly greater tally. -/
def dominantEntry (c : DirectionCounts) : Direction × ℕ :=
  let e1 : Direction × ℕ := (.bullish, c.bullish)
  let e2 : Direction × ℕ := (.bearish, c.bearish)
  let e3 : Direction × ℕ := (.neutral, c.neutral)
  let a1 := if c.get e1.1 > c.get e2.1 then e1 else e2
  if c.get a1.1 > c.get e3.1 then a1 else e3

/-- `DeliberationAgent.calculateConsensus`: vote share of the dominant
direction against the threshold.  (On an empty prediction list the
JavaScript computes `NaN`; every theorem below assumes
`totalPredictions ≠ 0`.) -/
def calculateConsensus (analysis : PredictionAnalysis) (threshold : ℚ) : ConsensusRecord :=
  let total := analysis.totalPredictions
  let dominantDirection := dominantEntry analysis.directions
  let ratio : ℚ := (dominantDirection.2 : ℚ) / (total : ℚ)
  { hasConsensus := ratio ≥ threshold
    direction := dominantDirection.1
    strength := ratio
    threshold := threshold
    supportingAgents := ratio * (total : ℚ)
    averageConfidence := analysis.averageConfidence }

/-- Spec-side quantity: the number of votes of the plurality (most common)
direction among the predictions. -/
def pluralityCount (predictions : List AnalystPrediction) : ℕ :=
  let c := (analyzePredictions predictions).directions
  max c.bullish (max c.bearish c.neutral)

/-- Spec-side quantity: the vote share of the plurality direction,
`pluralityCount / N`. -/
def pluralityShare (predictions : List AnalystPrediction) : ℚ :=
  (pluralityCount predictions : ℚ) / (predictions.length : ℚ)

end SwarmOracle

namespace SwarmOracle

/-- Convenience constructor for a well-formed analyst prediction. -/
def mkPrediction (agentId : String) (d : Direction) (confidence : ℚ) : AnalystPrediction :=
  { agentId := agentId, prediction := some ⟨some d, none⟩, confidence := some confidence }

/-- Scenario A of the specification: predictions bullish/bullish/bearish
with confidences 0.9/0.7/0.6. -/
def scenarioA : List AnalystPrediction :=
  [mkPrediction "analyst-1" .bullish (9/10),
   mkPrediction "analyst-2" .bullish (7/10),
   mkPrediction "analyst-3" .bearish (3/5)]

/-- Scenario B of the specification: three identical bullish predictions. -/
def scenarioB : List AnalystPrediction :=
  [mkPrediction "analyst-1" .bullish (9/10),
   mkPrediction "analyst-2" .bullish (7/10),
   mkPrediction "analyst-3" .bullish (3/5)]

/-- The tally of the direction picked by `dominantEntry` is the maximum
of the three tallies. -/
theorem dominantEntry_count_eq_max (c : DirectionCounts) :
    c.get (dominantEntry c).1 = max c.bullish (max c.bearish c.neutral) := by
  rcases c with ⟨x, y, z⟩
  simp only [dominantEntry, DirectionCounts.get]
  by_cases h1 : x > y
  · simp only [if_pos h1, DirectionCounts.get]
    split_ifs <;> simp only [DirectionCounts.get] <;> omega
  · simp only [if_neg h1, DirectionCounts.get]
    split_ifs <;> simp only [DirectionCounts.get] <;> omega

/-- The second component of `dominantEntry` is the tally of its direction. -/
theorem dominantEntry_snd_eq (c : DirectionCounts) :
    (dominantEntry c).2 = c.get (dominantEntry c).1 := by
  rcases c with ⟨x, y, z⟩
  simp only [dominantEntry, DirectionCounts.get]
  by_cases h1 : x > y
  · simp only [if_pos h1, DirectionCounts.get]
    split_ifs <;> rfl
  · simp only [if_neg h1, DirectionCounts.get]
    split_ifs <;> rfl

/-- The dominant-direction tally found by `calculateConsensus` is the
plurality count. -/
theorem dominantEntry_snd_eq_pluralityCount (preds : List AnalystPrediction) :
    (dominantEntry (analyzePredictions preds).directions).2 = pluralityCount preds := by
  rw [dominantEntry_snd_eq, dominantEntry_count_eq_max]
  rfl

/-- C1.  For every consensus computation over a (nonempty) list of analyst
predictions with threshold `t`, the Facilitator's `calculateConsensus`
returns `hasConsensus = true` iff the vote share of the plurality direction
is at least `t`, and `strength` equals that vote share exactly; in
particular predictions bullish/bullish/bearish with threshold `0.8` yield
`hasConsensus = false`, `direction = bullish`, `strength = 2/3`. -/
theorem calculateConsensus_hasConsensus_iff_pluralityShare :
    (∀ (preds : List AnalystPrediction) (t : ℚ), preds ≠ [] →
      (((calculateConsensus (analyzePredictions preds) t).hasConsensus = true) ↔
          pluralityShare preds ≥ t)
        ∧ (calculateConsensus (analyzePredictions preds) t).strength = pluralityShare preds)
    ∧ ((calculateConsensus (analyzePredictions scenarioA) (4/5)).hasConsensus = false
        ∧ (calculateConsensus (analyzePredictions scenarioA) (4/5)).direction = .bullish
        ∧ (calculateConsensus (analyzePredictions scenarioA) (4/5)).strength = 2/3) := by
  constructor
  · intro preds t _
    have hshare : ((dominantEntry (analyzePredictions preds).directions).2 : ℚ) /
        ((analyzePredictions preds).totalPredictions : ℚ) = pluralityShare preds := by
      rw [dominantEntry_snd_eq_pluralityCount]
      rfl
    constructor
    · show (decide _ = true) ↔ _
      rw [decide_eq_true_iff, hshare]
    · show _ / _ = _
      exact hshare
  · have hdir : (analyzePredictions scenarioA).directions = ⟨2, 1, 0⟩ := by decide
    refine ⟨?_, ?_, ?_⟩ <;>
      simp only [calculateConsensus, hdir] <;>
      norm_num [dominantEntry, DirectionCounts.get, analyzePredictions, scenarioA]

/-- Witness for C1: on Scenario B (three bullish predictions, threshold
`0.8`) the general theorem yields `hasConsensus = true`. -/
theorem calculateConsensus_hasConsensus_iff_pluralityShare_witness :
    (calculateConsensus (analyzePredictions scenarioB) (4/5)).hasConsensus = true := by
  have h := calculateConsensus_hasConsensus_iff_pluralityShare.1 scenarioB (4/5)
    (by simp [scenarioB, mkPrediction])
  refine h.1.mpr ?_
  have hdir : (analyzePredictions scenarioB).directions = ⟨3, 0, 0⟩ := by decide
  simp only [pluralityShare, pluralityCount, hdir]
  norm_num [scenarioB, mkPrediction]

/-- One evidence item as consumed by the Resolver:
`{source, timestamp}` are the fields `calculateEvidenceWeight` reads. -/
structure Evidence where
  source : String
  timestamp : ℤ
deriving DecidableEq

/-- `DeliberationAgent.calculateEvidenceWeight`: base weight `0.5`,
`+0.3` for an `onchain` source, `+0.2` for `news`, `+0.1` for `social`
(three independent `if` statements in the source), a recency bonus of
`+0.2` below one hour of age else `+0.1` below 24 hours
(`ageHours = (now − timestamp) / 3600000`), capped at `1`. -/
def calculateEvidenceWeight (now : ℤ) (evidence : Evidence) : ℚ :=
  let weight : ℚ := 1/2
  let weight := if evidence.source = "onchain" then weight + 3/10 else weight
  let weight := if evidence.source = "news" then weight + 1/5 else weight
  let weight := if evidence.source = "social" then weight + 1/10 else weight
  let ageHours : ℚ := ((now - evidence.timestamp : ℤ) : ℚ) / 3600000
  let weight :=
    if ageHours < 1 then weight + 1/5
    else if ageHours < 24 then weight + 1/10
    else weight
  min 1 weight

/-- One conflicting prediction as consumed by `analyzeConflict`:
`pred.prediction.direction` is read unconditionally, so a direction is
required, together with `agentId` and `confidence`. -/
structure ConflictingPrediction where
  agentId : String
  direction : Direction
  confidence : ℚ
deriving DecidableEq

/-- One conflict record built by `analyzeConflict`:
`{agents: [a, b], type: 'directional_conflict', severity}`. -/
structure Conflict where
  agents : String × String
  type : String
  severity : ℚ
deriving DecidableEq

/-- The conflicts one prediction `p` forms with each later prediction
(the inner `j` loop of `analyzeConflict`). -/
def pairConflicts (p : ConflictingPrediction) (rest : List ConflictingPrediction) :
    List Conflict :=
  rest.filterMap fun q =>
    if p.direction ≠ q.direction then
      some { agents := (p.agentId, q.agentId), type := "directional_conflict",
             severity := |p.confidence - q.confidence| }
    else none

/-- The double loop of `analyzeConflict`: every ordered pair `i < j`
with differing directions yields a conflict. -/
def conflictsOf : List ConflictingPrediction → List Conflict
  | [] => []
  | p :: rest => pairConflicts p rest ++ conflictsOf rest

/-- JavaScript object assignment `obj[k] = v` on a string-keyed record
modelled as an association list: an existing key keeps its position and
gets the new value, a fresh key is appended. -/
def setKey (l : List (String × ℚ)) (k : String) (v : ℚ) : List (String × ℚ) :=
  if l.any (fun p => p.1 = k) then
    l.map (fun p => if p.1 = k then (k, v) else p)
  else l ++ [(k, v)]

/-- Property read `obj[k]` on the modelled string-keyed record. -/
def lookupWeight : List (String × ℚ) → String → Option ℚ
  | [], _ => none
  | p :: rest, s => if p.1 = s then some p.2 else lookupWeight rest s

/-- The `evidenceWeights` record of `analyzeConflict`:
`evidenceWeights[item.source] = calculateEvidenceWeight(item)` for each
evidence item in order, so a later item with the same source overwrites
the earlier weight. -/
def evidenceWeightsOf (now : ℤ) (evidence : List Evidence) : List (String × ℚ) :=
  evidence.foldl (fun acc item => setKey acc item.source (calculateEvidenceWeight now item)) []

/-- The `resolution` object returned by `DeliberationAgent.analyzeConflict`. -/
structure ConflictAnalysis where
  conflicts : List Conflict
  evidenceWeights : List (String × ℚ)
  totalConflicts : ℕ
  evidenceCount : ℕ
deriving DecidableEq

/-- `DeliberationAgent.analyzeConflict`. -/
def analyzeConflict (now : ℤ) (conflictingPredictions : List ConflictingPrediction)
    (evidence : List Evidence) : ConflictAnalysis :=
  { conflicts := conflictsOf conflictingPredictions
    evidenceWeights := evidenceWeightsOf now evidence
    totalConflicts := (conflictsOf conflictingPredictions).length
    evidenceCount := evidence.length }

/-- The decision object returned by `DeliberationAgent.makeResolutionDecision`.
`confidence` is `Option ℚ`: with an empty conflict list the JavaScript
average severity is `NaN` and taints `confidence`; `none` models `NaN`. -/
structure ResolutionDecision where
  resolution : String
  confidence : Option ℚ
  strategy : String
  requiresHumanReview : Bool
deriving DecidableEq

/-- `DeliberationAgent.makeResolutionDecision`: `evidence_based` when some
recorded evidence weight exceeds `0.8`, else `majority_vote`; human review
when the average conflict severity exceeds `0.8` (a `NaN` average — empty
conflict list — compares false in JavaScript, modelled by the `none` arm). -/
def makeResolutionDecision (resolution : ConflictAnalysis) : ResolutionDecision :=
  let hasStrongEvidence := resolution.evidenceWeights.any fun p => p.2 > 4/5
  let conflictSeverity : Option ℚ :=
    if resolution.conflicts.isEmpty then none
    else some ((resolution.conflicts.map (fun c => c.severity)).sum /
      (resolution.conflicts.length : ℚ))
  { resolution := if hasStrongEvidence then "evidence_based" else "majority_vote"
    confidence :=
      if hasStrongEvidence then some (9/10)
      else conflictSeverity.map fun s => max (3/10) (1 - s)
    strategy :=
      if hasStrongEvidence then "Follow strongest evidence"
      else "Defer to majority consensus"
    requiresHumanReview :=
      match conflictSeverity with
      | none => false
      | some s => decide (s > 4/5) }

/-- JavaScript `x || d` for an optionally-present number:
`undefined` and `0` are falsy and select the default. -/
def jsOrNum (x : Option ℚ) (d : ℚ) : ℚ :=
  match x with
  | none => d
  | some v => if v = 0 then d else v

/-- The assessment object returned by `ExecutionAgent.assessRisk`. -/
structure RiskAssessment where
  overall : ℚ
  confidence : ℚ
  riskLevel : String
deriving DecidableEq

/-- `ExecutionAgent.assessRisk`: `confidenceRisk = 1 − (confidence or 0.5)`,
`volatilityRisk = (volatility or 0.2) / 0.5`, overall risk
`min(1, (confidenceRisk + volatilityRisk) / 2)` mapped onto
high (`> 0.7`) / medium (`> 0.4`) / low. -/
def assessRisk (predictionConfidence marketVolatility : Option ℚ) : RiskAssessment :=
  let confidenceRisk := 1 - jsOrNum predictionConfidence (1/2)
  let volatilityRisk := jsOrNum marketVolatility (1/5) / (1/2)
  let overall := min 1 ((confidenceRisk + volatilityRisk) / 2)
  { overall := overall
    confidence := 4/5
    riskLevel := if overall > 7/10 then "high" else if overall > 2/5 then "medium" else "low" }

/-- The recommendation object returned by
`ExecutionAgent.generateRiskRecommendation`. -/
structure RiskRecommendation where
  action : String
  maxExposure : ℚ
deriving DecidableEq

/-- `ExecutionAgent.generateRiskRecommendation`. -/
def generateRiskRecommendation (riskAssessment : RiskAssessment) : RiskRecommendation :=
  if riskAssessment.riskLevel = "high" then { action := "reject", maxExposure := 0 }
  else if riskAssessment.riskLevel = "medium" then
    { action := "proceed_with_caution", maxExposure := 1/2 }
  else { action := "proceed", maxExposure := 4/5 }

/-- C7.  For a prediction confidence in `[0,1]` and a nonnegative
volatility, the risk manager's overall risk score lies in `[0,1]`; the
risk level maps to reject (exposure 0) / proceed-with-caution (0.5) /
proceed (0.8); and confidence `0.9` with volatility `0.1` gives overall
risk below `0.4` and the recommendation proceed with exposure `0.8`. -/
theorem riskManager_bounds_and_recommendation (c v : ℚ)
    (hc0 : 0 ≤ c) (hc1 : c ≤ 1) (hv : 0 ≤ v) :
    (0 ≤ (assessRisk (some c) (some v)).overall
      ∧ (assessRisk (some c) (some v)).overall ≤ 1)
    ∧ (∀ r : RiskAssessment, r.riskLevel = "high" →
        generateRiskRecommendation r = { action := "reject", maxExposure := 0 })
    ∧ (∀ r : RiskAssessment, r.riskLevel = "medium" →
        generateRiskRecommendation r = { action := "proceed_with_caution", maxExposure := 1/2 })
    ∧ (∀ r : RiskAssessment, r.riskLevel = "low" →
        generateRiskRecommendation r = { action := "proceed", maxExposure := 4/5 })
    ∧ ((assessRisk (some (9/10)) (some (1/10))).overall < 2/5
      ∧ generateRiskRecommendation (assessRisk (some (9/10)) (some (1/10))) =
          { action := "proceed", maxExposure := 4/5 }) := by
  refine ⟨⟨?_, ?_⟩, ?_, ?_, ?_, ?_, ?_⟩
  · show (0:ℚ) ≤ min 1 _
    apply le_min (by norm_num)
    rcases eq_or_ne c 0 with hc | hc <;> rcases eq_or_ne v 0 with hv0 | hv0 <;>
      simp [jsOrNum, hc, hv0] <;> nlinarith
  · exact min_le_left _ _
  · intro r hr
    simp [generateRiskRecommendation, hr]
  · intro r hr
    simp [generateRiskRecommendation, hr]
  · intro r hr
    simp [generateRiskRecommendation, hr]
  · norm_num [assessRisk, jsOrNum]
  · norm_num [assessRisk, generateRiskRecommendation, jsOrNum]
    simp

/-- Witness for C7 at confidence `0.9`, volatility `0.1`. -/
theorem riskManager_bounds_and_recommendation_witness :
    (0:ℚ) ≤ 9/10 ∧ (9:ℚ)/10 ≤ 1 ∧ (0:ℚ) ≤ 1/10 ∧
      generateRiskRecommendation (assessRisk (some (9/10)) (some (1/10))) =
        { action := "proceed", maxExposure := 4/5 } :=
  ⟨by norm_num, by norm_num, by norm_num,
    (riskManager_bounds_and_recommendation (9/10) (1/10)
      (by norm_num) (by norm_num) (by norm_num)).2.2.2.2.2⟩

/-- A key never written is never found. -/
theorem lookupWeight_eq_none_of_not_any (l : List (String × ℚ)) (k : String)
    (h : l.any (fun p => p.1 = k) = false) : lookupWeight l k = none := by
  induction l with
  | nil => rfl
  | cons p rest ih =>
    simp only [List.any_cons, Bool.or_eq_false_iff] at h
    simp only [lookupWeight, if_neg (by simpa using h.1)]
    exact ih h.2

/-- Rewriting the value at key `k` leaves every other key's lookup
unchanged. -/
theorem lookupWeight_map_of_ne (l : List (String × ℚ)) (k : String) (v : ℚ) (s : String)
    (hsk : s ≠ k) :
    lookupWeight (l.map fun p => if p.1 = k then (k, v) else p) s = lookupWeight l s := by
  induction l with
  | nil => rfl
  | cons p rest ih =>
    by_cases hpk : p.1 = k
    · simp only [List.map_cons, if_pos hpk, lookupWeight]
      rw [if_neg (fun h : k = s => hsk h.symm),
        if_neg (fun h : p.1 = s => hsk (h.symm.trans hpk)), ih]
    · simp only [List.map_cons, if_neg hpk, lookupWeight]
      by_cases hps : p.1 = s
      · rw [if_pos hps, if_pos hps]
      · rw [if_neg hps, if_neg hps, ih]

/-- Rewriting the value at a present key `k` makes its lookup the new
value. -/
theorem lookupWeight_map_self (l : List (String × ℚ)) (k : String) (v : ℚ)
    (h : l.any (fun p => p.1 = k) = true) :
    lookupWeight (l.map fun p => if p.1 = k then (k, v) else p) k = some v := by
  induction l with
  | nil => simp at h
  | cons p rest ih =>
    by_cases hpk : p.1 = k
    · simp [List.map_cons, if_pos hpk, lookupWeight]
    · simp only [List.any_cons, Bool.or_eq_true, decide_eq_true_eq] at h
      rcases h with h | h
      · exact absurd h hpk
      · simp only [List.map_cons, if_neg hpk, lookupWeight, if_neg hpk]
        exact ih h

/-- A key found in the prefix keeps its value after appending. -/
theorem lookupWeight_append_of_some (l l2 : List (String × ℚ)) (s : String) (w : ℚ)
    (h : lookupWeight l s = some w) : lookupWeight (l ++ l2) s = some w := by
  induction l with
  | nil => exact absurd h (by simp [lookupWeight])
  | cons p rest ih =>
    simp only [lookupWeight] at h
    by_cases hps : p.1 = s
    · rw [if_pos hps] at h
      simpa only [List.cons_append, lookupWeight, if_pos hps] using h
    · rw [if_neg hps] at h
      simpa only [List.cons_append, lookupWeight, if_neg hps] using ih h

/-- A key absent from the prefix is looked up in the appended pair. -/
theorem lookupWeight_append_of_none (l : List (String × ℚ)) (k : String) (v : ℚ) (s : String)
    (h : lookupWeight l s = none) :
    lookupWeight (l ++ [(k, v)]) s = if k = s then some v else none := by
  induction l with
  | nil => rfl
  | cons p rest ih =>
    simp only [lookupWeight] at h
    by_cases hps : p.1 = s
    · rw [if_pos hps] at h
      exact absurd h (by simp)
    · rw [if_neg hps] at h
      simpa only [List.cons_append, lookupWeight, if_neg hps] using ih h

/-- Reading a record after `setKey`: the written key returns the new
value, every other key is untouched. -/
theorem lookupWeight_setKey (l : List (String × ℚ)) (k : String) (v : ℚ) (s : String) :
    lookupWeight (setKey l k v) s = if s = k then some v else lookupWeight l s := by
  unfold setKey
  by_cases hany : l.any (fun p => p.1 = k) = true
  · rw [if_pos hany]
    by_cases hsk : s = k
    · subst hsk
      rw [if_pos rfl, lookupWeight_map_self l s v hany]
    · rw [if_neg hsk, lookupWeight_map_of_ne l k v s hsk]
  · rw [if_neg hany]
    by_cases hsk : s = k
    · subst hsk
      have h0 : lookupWeight l s = none :=
        lookupWeight_eq_none_of_not_any l s
          (by rw [Bool.not_eq_true] at hany; exact hany)
      rw [if_pos rfl, lookupWeight_append_of_none l s v s h0, if_pos rfl]
    · rw [if_neg hsk]
      cases hcase : lookupWeight l s with
      | none => rw [lookupWeight_append_of_none l k v s hcase,
          if_neg (fun h => hsk h.symm)]
      | some w => rw [lookupWeight_append_of_some l [(k, v)] s w hcase]

/-- Generalized fold characterization: after replaying a list of
evidence items over any starting record, the weight found for a source
is that of the last evidence item with that source, falling back to the
starting record. -/
theorem lookupWeight_foldl_setKey (now : ℤ) (evidence : List Evidence)
    (acc : List (String × ℚ)) (s : String) :
    lookupWeight
        (evidence.foldl
          (fun a item => setKey a item.source (calculateEvidenceWeight now item)) acc) s =
      match (evidence.filter fun e => e.source = s).getLast? with
      | some e => some (calculateEvidenceWeight now e)
      | none => lookupWeight acc s := by
  induction evidence generalizing acc with
  | nil => rfl
  | cons e rest ih =>
    rw [List.foldl_cons, ih]
    by_cases hs : e.source = s
    · rw [List.filter_cons_of_pos (by simpa using hs)]
      cases hrest : (rest.filter fun x => x.source = s).getLast? with
      | none =>
        have hnil : (rest.filter fun x => x.source = s) = [] := by
          cases hfil : rest.filter fun x => x.source = s with
          | nil => rfl
          | cons a l => rw [hfil] at hrest; simp [List.getLast?] at hrest
        rw [hnil]
        simp [lookupWeight_setKey, hs]
      | some y =>
        cases hfil : rest.filter fun x => x.source = s with
        | nil =>
          rw [hfil] at hrest
          exact absurd hrest (by simp)
        | cons a l =>
          rw [hfil] at hrest
          rw [List.getLast?_cons_cons, hrest]
    · rw [List.filter_cons_of_neg (by simpa using hs)]
      cases hrest : (rest.filter fun x => x.source = s).getLast? with
      | none => rw [lookupWeight_setKey, if_neg (fun h => hs h.symm)]
      | some y => rfl

/-- C6 key fact: the weight the Resolver's record holds for a source is
the weight of the *last* evidence item carrying that source. -/
theorem lookupWeight_evidenceWeightsOf (now : ℤ) (evidence : List Evidence) (s : String) :
    lookupWeight (evidenceWeightsOf now evidence) s =
      ((evidence.filter fun e => e.source = s).getLast?).map (calculateEvidenceWeight now) := by
  rw [evidenceWeightsOf, lookupWeight_foldl_setKey]
  cases (evidence.filter fun e => e.source = s).getLast? <;> rfl

/-- `setKey` preserves the key list up to appending a fresh key, so keys
stay pairwise distinct. -/
theorem nodupKeys_setKey (l : List (String × ℚ)) (k : String) (v : ℚ)
    (h : (l.map fun p => p.1).Nodup) : ((setKey l k v).map fun p => p.1).Nodup := by
  unfold setKey
  by_cases hany : l.any (fun p => p.1 = k) = true
  · rw [if_pos hany]
    have : ((l.map fun p => if p.1 = k then (k, v) else p).map fun p => p.1) =
        l.map fun p => p.1 := by
      rw [List.map_map]
      refine List.map_congr_left ?_
      intro p _
      by_cases hpk : p.1 = k
      · simp [Function.comp, hpk]
      · simp [Function.comp, hpk]
    rw [this]
    exact h
  · rw [if_neg hany]
    rw [List.map_append]
    simp only [List.map_cons, List.map_nil]
    rw [List.nodup_append]
    refine ⟨h, List.nodup_singleton k, ?_⟩
    intro a ha
    simp only [List.mem_singleton]
    intro hak
    subst hak
    rcases List.mem_map.mp ha with ⟨p, hp, hpk⟩
    rw [Bool.not_eq_true] at hany
    have := List.any_eq_false.mp hany p hp
    simp [hpk] at this

/-- The Resolver's evidence-weight record has pairwise-distinct keys. -/
theorem nodupKeys_evidenceWeightsOf (now : ℤ) (evidence : List Evidence) :
    ((evidenceWeightsOf now evidence).map fun p => p.1).Nodup := by
  rw [evidenceWeightsOf]
  have main : ∀ (evs : List Evidence) (acc : List (String × ℚ)),
      (acc.map fun p => p.1).Nodup →
      ((evs.foldl
        (fun a item => setKey a item.source (calculateEvidenceWeight now item)) acc).map
          fun p => p.1).Nodup := by
    intro evs
    induction evs with
    | nil => intro acc h; exact h
    | cons e rest ih =>
      intro acc h
      rw [List.foldl_cons]
      exact ih _ (nodupKeys_setKey _ _ _ h)
  exact main evidence [] (by simp)

/-- For a record with pairwise-distinct keys, a member pair is exactly a
successful lookup. -/
theorem lookupWeight_eq_some_of_mem (l : List (String × ℚ)) (p : String × ℚ)
    (hnodup : (l.map fun q => q.1).Nodup) (hmem : p ∈ l) :
    lookupWeight l p.1 = some p.2 := by
  induction l with
  | nil => exact absurd hmem (List.not_mem_nil p)
  | cons q rest ih =>
    simp only [List.map_cons, List.nodup_cons] at hnodup
    rcases List.mem_cons.mp hmem with hq | hq
    · subst hq
      simp [lookupWeight]
    · have hne : q.1 ≠ p.1 := by
        intro he
        exact hnodup.1 (he ▸ List.mem_map.mpr ⟨p, hq, rfl⟩)
      simp only [lookupWeight, if_neg hne]
      exact ih hnodup.2 hq

/-- A successful lookup comes from a member pair. -/
theorem mem_of_lookupWeight_eq_some (l : List (String × ℚ)) (s : String) (w : ℚ)
    (h : lookupWeight l s = some w) : (s, w) ∈ l := by
  induction l with
  | nil => exact absurd h (by simp [lookupWeight])
  | cons q rest ih =>
    simp only [lookupWeight] at h
    by_cases hqs : q.1 = s
    · rw [if_pos hqs] at h
      have hq : q = (s, w) := by
        have h2 : q.2 = w := Option.some.inj h
        calc q = (q.1, q.2) := rfl
          _ = (s, w) := by rw [hqs, h2]
      rw [← hq]
      exact List.mem_cons_self q rest
    · rw [if_neg hqs] at h
      exact List.mem_cons_of_mem _ (ih h)

/-- Spec-side closed form of the evidence weight: base `0.5` plus a
single source bonus (`0.3` onchain / `0.2` news / `0.1` social) plus a
recency bonus (`0.2` under one hour, `0.1` under 24 hours), capped at 1. -/
def specEvidenceWeight (now : ℤ) (e : Evidence) : ℚ :=
  let sourceBonus : ℚ :=
    if e.source = "onchain" then 3/10
    else if e.source = "news" then 1/5
    else if e.source = "social" then 1/10
    else 0
  let ageHours : ℚ := ((now - e.timestamp : ℤ) : ℚ) / 3600000
  let recencyBonus : ℚ := if ageHours < 1 then 1/5 else if ageHours < 24 then 1/10 else 0
  min 1 (1/2 + sourceBonus + recencyBonus)

/-- Spec-side average severity of a conflict list. -/
def averageSeverity (conflicts : List Conflict) : ℚ :=
  (conflicts.map fun c => c.severity).sum / (conflicts.length : ℚ)

/-- The source's sequential bonus accumulation agrees with the spec's
closed form. -/
theorem calculateEvidenceWeight_eq_spec (now : ℤ) (e : Evidence) :
    calculateEvidenceWeight now e = specEvidenceWeight now e := by
  unfold calculateEvidenceWeight specEvidenceWeight
  by_cases h1 : e.source = "onchain"
  · simp only [h1]
    simp
    split_ifs <;> norm_num
  · by_cases h2 : e.source = "news"
    · simp only [h2]
      simp
      split_ifs <;> norm_num
    · by_cases h3 : e.source = "social"
      · simp only [h3]
        simp
        split_ifs <;> norm_num
      · simp only [h1, h2, h3, if_false]
        norm_num [h1, h2, h3]
        split_ifs <;> norm_num

/-- C6 counterexample to the claim as stated: with two `onchain`
evidence items — one fresh (weight 1) and one 25 hours old (weight 0.8)
— some evidence item's weight exceeds 0.8, yet the weights record keyed
by source retains only the later (stale) item, so the Resolver decides
`majority_vote`, not `evidence_based`. -/
theorem resolver_duplicate_source_counterexample :
    calculateEvidenceWeight 0 { source := "onchain", timestamp := 0 } = 1
    ∧ ((1 : ℚ) > 4/5)
    ∧ ({ source := "onchain", timestamp := 0 } : Evidence) ∈
        [({ source := "onchain", timestamp := 0 } : Evidence),
         { source := "onchain", timestamp := -90000000 }]
    ∧ (makeResolutionDecision (analyzeConflict 0 []
        [{ source := "onchain", timestamp := 0 },
         { source := "onchain", timestamp := -90000000 }])).resolution = "majority_vote" := by
  refine ⟨?_, by norm_num, by simp, ?_⟩
  · simp [calculateEvidenceWeight]
    norm_num
  · have h1 : calculateEvidenceWeight 0 { source := "onchain", timestamp := 0 } = 1 := by
      simp [calculateEvidenceWeight]
      norm_num
    have h2 : calculateEvidenceWeight 0 { source := "onchain", timestamp := -90000000 } = 4/5 := by
      simp [calculateEvidenceWeight]
      norm_num
    simp only [makeResolutionDecision, analyzeConflict, evidenceWeightsOf, List.foldl_cons,
      List.foldl_nil, setKey, h1, h2]
    norm_num

/-- C6 (amended).  The Resolver's evidence weight follows the spec's
closed form; the weight recorded for a source is that of the *last*
evidence item with that source (weights are keyed by source, later items
overwrite earlier ones); the decision is `evidence_based` iff some
recorded per-source weight exceeds 0.8, else `majority_vote`; human
review is required iff conflicts exist and their average severity
exceeds 0.8; and a single fresh `onchain` item weighs 1.0 and yields
`evidence_based`. -/
theorem resolver_decision_characterization :
    (∀ (now : ℤ) (e : Evidence), calculateEvidenceWeight now e = specEvidenceWeight now e)
    ∧ (∀ (now : ℤ) (evidence : List Evidence) (s : String),
        lookupWeight (evidenceWeightsOf now evidence) s =
          ((evidence.filter fun e => e.source = s).getLast?).map (calculateEvidenceWeight now))
    ∧ (∀ (now : ℤ) (cps : List ConflictingPrediction) (evidence : List Evidence),
        ((makeResolutionDecision (analyzeConflict now cps evidence)).resolution =
            "evidence_based" ↔
          ∃ s v, lookupWeight (evidenceWeightsOf now evidence) s = some v ∧ v > 4/5))
    ∧ (∀ (now : ℤ) (cps : List ConflictingPrediction) (evidence : List Evidence),
        ((makeResolutionDecision (analyzeConflict now cps evidence)).requiresHumanReview = true ↔
          conflictsOf cps ≠ [] ∧ averageSeverity (conflictsOf cps) > 4/5))
    ∧ (∀ now : ℤ, calculateEvidenceWeight now { source := "onchain", timestamp := now } = 1
        ∧ (makeResolutionDecision
            (analyzeConflict now [] [{ source := "onchain", timestamp := now }])).resolution =
          "evidence_based") := by
  refine ⟨calculateEvidenceWeight_eq_spec, lookupWeight_evidenceWeightsOf, ?_, ?_, ?_⟩
  · intro now cps evidence
    simp only [makeResolutionDecision, analyzeConflict]
    by_cases hany : (evidenceWeightsOf now evidence).any (fun p => decide (p.2 > 4/5)) = true
    · rw [if_pos hany]
      constructor
      · intro _
        rcases List.any_eq_true.mp hany with ⟨p, hp, hv⟩
        exact ⟨p.1, p.2,
          lookupWeight_eq_some_of_mem _ p (nodupKeys_evidenceWeightsOf now evidence) hp,
          of_decide_eq_true hv⟩
      · intro _
        rfl
    · rw [if_neg hany]
      constructor
      · intro h
        exact absurd h (by simp)
      · rintro ⟨s, v, hl, hv⟩
        exact absurd
          (List.any_eq_true.mpr
            ⟨(s, v), mem_of_lookupWeight_eq_some _ _ _ hl, decide_eq_true hv⟩) hany
  · intro now cps evidence
    simp only [makeResolutionDecision, analyzeConflict]
    by_cases hemp : (conflictsOf cps).isEmpty = true
    · have hnil : conflictsOf cps = [] := List.isEmpty_iff.mp hemp
      rw [if_pos hemp]
      simp [hnil]
    · have hne : conflictsOf cps ≠ [] := fun h => hemp (by simp [h])
      rw [if_neg hemp]
      simp only [decide_eq_true_iff, averageSeverity]
      exact ⟨fun h => ⟨hne, h⟩, fun h => h.2⟩
  · intro now
    have h1 : calculateEvidenceWeight now { source := "onchain", timestamp := now } = 1 := by
      simp [calculateEvidenceWeight]
      norm_num
    refine ⟨h1, ?_⟩
    simp only [makeResolutionDecision, analyzeConflict, evidenceWeightsOf, List.foldl_cons,
      List.foldl_nil, setKey, h1]
    norm_num

/-- Agent lifecycle status. -/
inductive AgentStatus where
  | active
  | inactive
  | error
deriving DecidableEq

/-- The per-agent view the Coordinator's health check reads:
identity plus the fields `BaseAgent.isHealthy` consults. -/
structure RegisteredAgent where
  id : String
  type : String
  status : AgentStatus
  lastActivityTime : ℤ
deriving DecidableEq

/-- `BaseAgent.isHealthy`: status is `active` and the time since the
last activity is below the five-minute inactivity limit (300000 ms). -/
def isHealthy (a : RegisteredAgent) (now : ℤ) : Bool :=
  decide (a.status = AgentStatus.active) && decide (now - a.lastActivityTime < 300000)

/-- `AgentCoordinator.healthCheck`: counts registered agents whose own
health predicate holds, forms the healthy share (0 when the registry is
empty), and compares it with 0.8 *strictly*. -/
def healthCheck (agents : List RegisteredAgent) (now : ℤ) : Bool :=
  let healthyAgents := (agents.filter fun a => isHealthy a now).length
  let totalAgents := agents.length
  let healthyShare : ℚ :=
    if totalAgents > 0 then (healthyAgents : ℚ) / (totalAgents : ℚ) else 0
  decide (healthyShare > 4/5)

/-- A registry of five agents of which exactly four satisfy their own
health predicate at time 0. -/
def fourOfFiveAgents : List RegisteredAgent :=
  [{ id := "collector-1", type := "twitter", status := .active, lastActivityTime := 0 },
   { id := "collector-2", type := "reddit", status := .active, lastActivityTime := 0 },
   { id := "analyst-1", type := "technical", status := .active, lastActivityTime := 0 },
   { id := "analyst-2", type := "sentiment", status := .active, lastActivityTime := 0 },
   { id := "facilitator-1", type := "facilitator", status := .inactive, lastActivityTime := 0 }]

/-- C4 counterexample to the claim as stated: with 4 healthy agents out
of 5 the healthy share is exactly 0.8 — at least the claimed 0.8
threshold — yet `healthCheck` returns false, because the source compares
with `>` and not `≥`. -/
theorem healthCheck_exact_eighty_percent_counterexample :
    ((fourOfFiveAgents.filter fun a => isHealthy a 0).length : ℚ) /
        (fourOfFiveAgents.length : ℚ) ≥ 4/5
    ∧ healthCheck fourOfFiveAgents 0 = false := by
  have hlen : (fourOfFiveAgents.filter fun a => isHealthy a 0).length = 4 := by decide
  have htot : fourOfFiveAgents.length = 5 := rfl
  constructor
  · rw [hlen, htot]
    norm_num
  · simp only [healthCheck, hlen, htot]
    norm_num

/-- C4 (amended).  For every registry state and time, the Coordinator's
`healthCheck` returns true iff the agents satisfying their own health
predicate are *strictly more* than 80% of the registered agents. -/
theorem healthCheck_true_iff_share_gt (agents : List RegisteredAgent) (now : ℤ) :
    healthCheck agents now = true ↔
      ((agents.filter fun a => isHealthy a now).length : ℚ) >
        4/5 * (agents.length : ℚ) := by
  simp only [healthCheck, decide_eq_true_iff]
  rcases Nat.eq_zero_or_pos agents.length with h0 | hpos
  · rw [if_neg (by omega)]
    have hfil : (agents.filter fun a => isHealthy a now).length = 0 := by
      have := List.length_filter_le (fun a => isHealthy a now) agents
      omega
    rw [hfil, h0]
    norm_num
  · rw [if_pos (by omega)]
    have ht : (0:ℚ) < (agents.length : ℚ) := by
      exact_mod_cast hpos
    rw [gt_iff_lt, lt_div_iff₀ ht, gt_iff_lt, mul_comm]

/-- One agent memory entry `{id, type, timestamp, data}`; the payload
(`data: any` in the source) is an arbitrary type. -/
structure MemoryEntry (α : Type) where
  id : String
  type : String
  timestamp : ℤ
  data : α
deriving DecidableEq

/-- The agent-private memory state of `BaseAgent`:
the entry list plus the configured cap (source default 1000). -/
structure AgentMemoryState (α : Type) where
  memory : List (MemoryEntry α)
  maxMemorySize : ℕ
deriving DecidableEq

/-- JavaScript `array.slice(-n)`: the last `n` elements, except that
`slice(-0)` is `slice(0)` and returns the whole array. -/
def sliceLast {β : Type} (n : ℕ) (l : List β) : List β :=
  if n = 0 then l else l.drop (l.length - n)

/-- `BaseAgent.storeMemory`: build the entry (fresh id and the current
time are modelled as arguments), push it, and when the cap is exceeded
keep only the most recent `maxMemorySize` entries. -/
def storeMemory {α : Type} (s : AgentMemoryState α) (newId : String) (now : ℤ)
    (entryType : String) (entryData : α) : AgentMemoryState α :=
  let memoryItem : MemoryEntry α :=
    { id := newId, type := entryType, timestamp := now, data := entryData }
  let memory := s.memory ++ [memoryItem]
  { s with
    memory :=
      if memory.length > s.maxMemorySize then sliceLast s.maxMemorySize memory else memory }

/-- Stable insertion into a timestamp-descending list: an entry goes in
front of every entry with a *smaller or equal* timestamp never crossing
a larger one, which reproduces a stable sort under the JavaScript
comparator `(a, b) => b.timestamp - a.timestamp`. -/
def insertByTimestampDesc {α : Type} (e : MemoryEntry α) :
    List (MemoryEntry α) → List (MemoryEntry α)
  | [] => [e]
  | x :: xs =>
    if e.timestamp ≥ x.timestamp then e :: x :: xs
    else x :: insertByTimestampDesc e xs

/-- Stable timestamp-descending sort (insertion sort), modelling the
ECMAScript-mandated stable `Array.prototype.sort` under the comparator
`(a, b) => b.timestamp - a.timestamp`. -/
def sortByTimestampDesc {α : Type} : List (MemoryEntry α) → List (MemoryEntry α)
  | [] => []
  | x :: xs => insertByTimestampDesc x (sortByTimestampDesc xs)

/-- `BaseAgent.getRecentMemories`: sort by timestamp descending (stable)
and take the first `limit` entries. -/
def getRecentMemories {α : Type} (s : AgentMemoryState α) (limit : ℕ) :
    List (MemoryEntry α) :=
  (sortByTimestampDesc s.memory).take limit

/-- C9.  After every `storeMemory` the memory holds at most
`maxMemorySize` entries, and what is retained is exactly a suffix of the
previous memory extended with the new entry: the oldest entries are
evicted, the rest are untouched. -/
theorem storeMemory_cap_invariant {α : Type} (s : AgentMemoryState α) (newId : String)
    (now : ℤ) (entryType : String) (entryData : α) (hmax : 0 < s.maxMemorySize) :
    (storeMemory s newId now entryType entryData).memory.length ≤ s.maxMemorySize
    ∧ (storeMemory s newId now entryType entryData).memory <:+
        (s.memory ++ [(⟨newId, entryType, now, entryData⟩ : MemoryEntry α)]) := by
  simp only [storeMemory]
  by_cases hover :
      (s.memory ++ [(⟨newId, entryType, now, entryData⟩ : MemoryEntry α)]).length >
        s.maxMemorySize
  · rw [if_pos hover]
    unfold sliceLast
    rw [if_neg (by omega)]
    constructor
    · rw [List.length_drop]
      omega
    · exact List.drop_suffix _ _
  · rw [if_neg hover]
    exact ⟨by omega, List.suffix_refl _⟩

/-- Witness for C9 on a concrete store into an agent with the default
cap of 1000. -/
theorem storeMemory_cap_invariant_witness :
    0 < (1000 : ℕ)
    ∧ (storeMemory (⟨[], 1000⟩ : AgentMemoryState String)
        "agent_1_m1" 17 "observation" "BTC rally").memory.length ≤ 1000 :=
  ⟨by norm_num,
    (storeMemory_cap_invariant (⟨[], 1000⟩ : AgentMemoryState String)
      "agent_1_m1" 17 "observation" "BTC rally" (by norm_num)).1⟩

/-- Appending an entry strictly newer than every existing entry sorts to
the front. -/
theorem sortByTimestampDesc_append_newest {α : Type} (l : List (MemoryEntry α))
    (e : MemoryEntry α) (h : ∀ m ∈ l, m.timestamp < e.timestamp) :
    sortByTimestampDesc (l ++ [e]) = e :: sortByTimestampDesc l := by
  induction l with
  | nil => rfl
  | cons x xs ih =>
    have hx : x.timestamp < e.timestamp := h x (List.mem_cons_self x xs)
    have hxs : ∀ m ∈ xs, m.timestamp < e.timestamp := fun m hm =>
      h m (List.mem_cons_of_mem x hm)
    show insertByTimestampDesc x (sortByTimestampDesc (xs ++ [e])) =
      e :: insertByTimestampDesc x (sortByTimestampDesc xs)
    rw [ih hxs, insertByTimestampDesc, if_neg (not_le.mpr hx)]

/-- C8 counterexample to the claim as stated: the agent already holds an
entry with the same timestamp as the one being stored (two stores inside
one millisecond).  The stable timestamp sort keeps the *older* entry
first, so `getRecentMemories(1)` returns the older entry, whose data
differs from the just-stored one. -/
theorem getRecentMemories_timestamp_tie_counterexample :
    getRecentMemories
        (storeMemory
          (⟨[⟨"m1", "observation", 0, "alpha"⟩], 1000⟩ : AgentMemoryState String)
          "m2" 0 "observation" "beta") 1 =
      [⟨"m1", "observation", 0, "alpha"⟩]
    ∧ ("alpha" : String) ≠ "beta" := by
  constructor
  · rfl
  · decide

/-- C8 (amended).  If the stored entry's timestamp is strictly newer
than every entry already in memory (no same-millisecond tie), then
`getRecentMemories 1` right after `storeMemory` returns exactly the
just-stored entry, with its type and data. -/
theorem storeMemory_getRecentMemories_roundTrip {α : Type} (s : AgentMemoryState α)
    (newId : String) (now : ℤ) (entryType : String) (entryData : α)
    (hmax : 0 < s.maxMemorySize)
    (hfresh : ∀ m ∈ s.memory, m.timestamp < now) :
    getRecentMemories (storeMemory s newId now entryType entryData) 1 =
      [(⟨newId, entryType, now, entryData⟩ : MemoryEntry α)] := by
  unfold getRecentMemories
  simp only [storeMemory]
  by_cases hover :
      (s.memory ++ [(⟨newId, entryType, now, entryData⟩ : MemoryEntry α)]).length >
        s.maxMemorySize
  · rw [if_pos hover]
    unfold sliceLast
    rw [if_neg (by omega)]
    rw [List.length_append] at hover
    have hk : (s.memory ++ [(⟨newId, entryType, now, entryData⟩ : MemoryEntry α)]).length -
        s.maxMemorySize ≤ s.memory.length := by
      rw [List.length_append]
      simp only [List.length_singleton]
      omega
    rw [List.drop_append_of_le_length hk,
      sortByTimestampDesc_append_newest _ _
        (fun m hm => hfresh m (List.drop_subset _ _ hm))]
    rfl
  · rw [if_neg hover]
    rw [sortByTimestampDesc_append_newest _ _ hfresh]
    rfl

/-- Witness for C8 (amended): storing at timestamp 5 over an entry from
timestamp 0 retrieves the just-stored entry. -/
theorem storeMemory_getRecentMemories_roundTrip_witness :
    0 < (1000 : ℕ)
    ∧ (∀ m ∈ ([⟨"m1", "observation", 0, "alpha"⟩] : List (MemoryEntry String)),
        m.timestamp < 5)
    ∧ getRecentMemories
        (storeMemory
          (⟨[⟨"m1", "observation", 0, "alpha"⟩], 1000⟩ : AgentMemoryState String)
          "m2" 5 "observation" "beta") 1 =
      [(⟨"m2", "observation", 5, "beta"⟩ : MemoryEntry String)] :=
  ⟨by norm_num, by decide,
    storeMemory_getRecentMemories_roundTrip
      (⟨[⟨"m1", "observation", 0, "alpha"⟩], 1000⟩ : AgentMemoryState String)
      "m2" 5 "observation" "beta" (by norm_num) (by decide)⟩

/-- A coordinator-issued message `{id, fromAgentId, toAgentId, type,
timestamp}` sitting in a mailbox (the opaque `data` payload is the
original message object, not needed by any claim about queues). -/
structure AgentMessage where
  id : String
  fromAgentId : String
  toAgentId : Option String
  type : String
  timestamp : ℤ
deriving DecidableEq

/-- The registry entry `AgentCoordinator` keeps per agent: what
`agent.getId()` and `agent.getType()` return. -/
structure AgentRef where
  id : String
  type : String
deriving DecidableEq

/-- The `AgentCoordinator`'s mutable state: the `agents` map and the
`messageQueues` map, both keyed by agent id (JavaScript `Map`s modelled
as functions to `Option`). -/
structure CoordinatorState where
  agents : String → Option AgentRef
  messageQueues : String → Option (List AgentMessage)

/-- `AgentCoordinator.registerAgent`: `agents.set(id, agent)` and
`messageQueues.set(id, [])`. -/
def registerAgent (c : CoordinatorState) (agent : AgentRef) : CoordinatorState :=
  { agents := fun key => if key = agent.id then some agent else c.agents key
    messageQueues := fun key => if key = agent.id then some [] else c.messageQueues key }

/-- `AgentCoordinator.sendMessage`: synthesize a message (fresh id and
time are modelled as arguments; `message.type || 'generic'` with the
empty string falsy) and append it to the recipient's queue when that
queue exists; otherwise the state is unchanged. -/
def sendMessage (c : CoordinatorState) (msgId : String) (now : ℤ)
    (fromAgentId toAgentId : String) (msgType : String) : CoordinatorState :=
  let messageWithId : AgentMessage :=
    { id := msgId, fromAgentId := fromAgentId, toAgentId := some toAgentId,
      type := if msgType = "" then "generic" else msgType, timestamp := now }
  match c.messageQueues toAgentId with
  | some queue =>
    { c with
      messageQueues := fun key =>
        if key = toAgentId then some (queue ++ [messageWithId]) else c.messageQueues key }
  | none => c

/-- C10.  `registerAgent` is an upsert with a mailbox reset: afterwards
the registry maps the agent's id to the agent and its queue is empty —
discarding any pending messages — while every other id's registry entry
and mailbox are untouched. -/
theorem registerAgent_upsert_and_mailbox_reset (c : CoordinatorState) (agent : AgentRef) :
    (registerAgent c agent).agents agent.id = some agent
    ∧ (registerAgent c agent).messageQueues agent.id = some []
    ∧ (∀ key, key ≠ agent.id →
        (registerAgent c agent).agents key = c.agents key
        ∧ (registerAgent c agent).messageQueues key = c.messageQueues key) := by
  refine ⟨?_, ?_, ?_⟩
  · simp [registerAgent]
  · simp [registerAgent]
  · intro key hkey
    constructor
    · simp [registerAgent, if_neg hkey]
    · simp [registerAgent, if_neg hkey]

/-- A two-agent coordinator state where `alice` has one pending message
from `bob`. -/
def demoCoordinator : CoordinatorState :=
  sendMessage
    (registerAgent (registerAgent
      ⟨fun _ => none, fun _ => none⟩
      { id := "alice", type := "facilitator" })
      { id := "bob", type := "resolver" })
    "msg_1" 3 "bob" "alice" "status_update"

/-- Witness for C10: re-registering `alice` empties her mailbox (the
pending message from `bob` is silently discarded) and leaves `bob`'s
registry entry and mailbox untouched. -/
theorem registerAgent_upsert_and_mailbox_reset_witness :
    (demoCoordinator.messageQueues "alice").map List.length = some 1
    ∧ (registerAgent demoCoordinator
        { id := "alice", type := "facilitator" }).messageQueues "alice" = some []
    ∧ (registerAgent demoCoordinator
        { id := "alice", type := "facilitator" }).messageQueues "bob" =
          demoCoordinator.messageQueues "bob" := by
  refine ⟨by rfl, ?_, ?_⟩
  · exact (registerAgent_upsert_and_mailbox_reset demoCoordinator
      { id := "alice", type := "facilitator" }).2.1
  · exact ((registerAgent_upsert_and_mailbox_reset demoCoordinator
      { id := "alice", type := "facilitator" }).2.2 "bob" (by decide)).2

/-- The payload object accessed as `task.data` by the two Deliberation
handlers (JavaScript duck typing: any combination of fields may be
present or absent). -/
structure DelibCallData where
  predictions : Option (List AnalystPrediction)
  threshold : Option ℚ
  conflictingPredictions : Option (List ConflictingPrediction)
  evidence : Option (List Evidence)

/-- An argument object for the Deliberation handlers; its `data`
property may be absent (JavaScript `undefined`). -/
structure DelibCallArg where
  data : Option DelibCallData

/-- The record `DeliberationAgent.facilitateConsensus` resolves to (the
presentation-only `reasoning` string is not modelled). -/
structure FacilitationRecord where
  agentId : String
  deliberationType : String
  timestamp : ℤ
  consensus : ConsensusRecord
  confidence : ℚ
  participatingAgents : List String

/-- The record `DeliberationAgent.resolveDispute` resolves to (the
presentation-only `reasoning` string is not modelled). -/
structure DisputeResolutionRecord where
  agentId : String
  deliberationType : String
  timestamp : ℤ
  decision : ResolutionDecision
  confidence : Option ℚ
  conflictingAgents : List String
  resolution : ConflictAnalysis

/-- `DeliberationAgent.facilitateConsensus` in `Except` (a thrown
`TypeError` is `Except.error`): destructuring `task.data` throws when
`data` is absent, and iterating `predictions` throws when that field is
absent; the threshold defaults through `threshold || 0.8`. -/
def facilitateConsensus (agentId : String) (now : ℤ) (task : DelibCallArg) :
    Except String FacilitationRecord :=
  match task.data with
  | none => Except.error "Cannot destructure property predictions of task.data"
  | some d =>
    match d.predictions with
    | none => Except.error "predictions is not iterable"
    | some predictions =>
      let analysis := analyzePredictions predictions
      let consensus := calculateConsensus analysis (jsOrNum d.threshold (4/5))
      Except.ok
        { agentId := agentId
          deliberationType := "consensus"
          timestamp := now
          consensus := consensus
          confidence := consensus.strength
          participatingAgents := predictions.map fun p => p.agentId }

/-- `DeliberationAgent.resolveDispute` in `Except`: destructuring
`task.data` throws when `data` is absent; the conflict loop reads
`conflictingPredictions.length` and the evidence loop iterates
`evidence`, each throwing when the field is absent. -/
def resolveDispute (agentId : String) (now : ℤ) (task : DelibCallArg) :
    Except String DisputeResolutionRecord :=
  match task.data with
  | none => Except.error "Cannot destructure property conflictingPredictions of task.data"
  | some d =>
    match d.conflictingPredictions with
    | none => Except.error "Cannot read properties of undefined reading length"
    | some conflictingPredictions =>
      match d.evidence with
      | none => Except.error "evidence is not iterable"
      | some evidence =>
        let resolution := analyzeConflict now conflictingPredictions evidence
        let decision := makeResolutionDecision resolution
        Except.ok
          { agentId := agentId
            deliberationType := "dispute_resolution"
            timestamp := now
            decision := decision
            confidence := decision.confidence
            conflictingAgents := conflictingPredictions.map fun p => p.agentId
            resolution := resolution }

/-- A successful deliberation outcome: one of the two handler records. -/
inductive DeliberationOutcome where
  | facilitation (r : FacilitationRecord)
  | dispute (r : DisputeResolutionRecord)

/-- `DeliberationAgent.deliberate`: dispatch on the agent's deliberation
type.  The source passes the *flat* object `{proposals,
consensusThreshold}` to both handlers, which destructure `task.data` —
a property this object does not have — so `data` is `none` here; the
`proposals` and `consensusThreshold` arguments are carried but never
read past that point, exactly as in the source. -/
def deliberate (agentId deliberationType : String) (now : ℤ)
    (proposals : List AnalystPrediction) (consensusThreshold : ℚ) :
    Except String DeliberationOutcome :=
  if deliberationType = "facilitator" then
    (facilitateConsensus agentId now { data := none }).map DeliberationOutcome.facilitation
  else if deliberationType = "resolver" then
    (resolveDispute agentId now { data := none }).map DeliberationOutcome.dispute
  else Except.error ("Unknown deliberation type: " ++ deliberationType)

/-- A task as received by `DeliberationAgent.processTask`. -/
structure DelibTask where
  type : String
  proposals : Option (List AnalystPrediction)
  consensus_threshold : Option ℚ
  dispute : Option DelibCallArg
  data : Option DelibCallData

/-- The object `DeliberationAgent.processTask` returns to the
orchestrator.  Optional fields model JavaScript properties that a given
branch does not set; in particular no branch ever sets a top-level
`hasConsensus` property, so it defaults to `none` (`undefined`). -/
structure DelibTaskRecord where
  agentId : String
  taskType : String
  timestamp : ℤ
  success : Bool
  result : Option DeliberationOutcome := none
  resolution : Option DisputeResolutionRecord := none
  error : Option String := none
  hasConsensus : Option Bool := none

/-- `DeliberationAgent.processTask`: dispatch on the task type inside
try/catch — a throwing handler yields a `success:false` record carrying
the error string (the handler calls are the only throwing sites, so the
per-call handling is the source's single `try` around the `switch`). -/
def DeliberationAgent.processTask (agentId deliberationType : String) (now : ℤ)
    (task : DelibTask) : DelibTaskRecord :=
  if task.type = "deliberate" then
    match deliberate agentId deliberationType now (task.proposals.getD [])
        (jsOrNum task.consensus_threshold (4/5)) with
    | Except.ok r =>
      { agentId := agentId, taskType := "deliberation", timestamp := now,
        success := true, result := some r }
    | Except.error e =>
      { agentId := agentId, taskType := task.type, timestamp := now,
        success := false, error := some e }
  else if task.type = "resolve_dispute" then
    match resolveDispute agentId now (task.dispute.getD { data := none }) with
    | Except.ok r =>
      { agentId := agentId, taskType := "dispute_resolution", timestamp := now,
        success := true, resolution := some r }
    | Except.error e =>
      { agentId := agentId, taskType := task.type, timestamp := now,
        success := false, error := some e }
  else
    { agentId := agentId, taskType := task.type, timestamp := now,
      success := false, error := some "Unknown task type" }

/-- A well-formed 'deliberate' task carrying proposals and a threshold. -/
def deliberateTask (proposals : List AnalystPrediction) (threshold : ℚ)
    (dispute : Option DelibCallArg) (data : Option DelibCallData) : DelibTask :=
  ⟨"deliberate", some proposals, some threshold, dispute, data⟩

/-- C2.  Evaluation at the failing input: on every 'deliberate' task
carrying proposals and a consensus threshold, and for *every*
deliberation type, the facilitator's `processTask` returns a
`success:false` record with an error string and no consensus payload —
never a consensus record — because `deliberate` passes `{proposals,
consensusThreshold}` while `facilitateConsensus` destructures the absent
`task.data` and throws. -/
theorem processTask_deliberate_always_fails (agentId deliberationType : String)
    (now : ℤ) (proposals : List AnalystPrediction) (threshold : ℚ)
    (dispute : Option DelibCallArg) (data : Option DelibCallData) :
    (DeliberationAgent.processTask agentId deliberationType now
        (deliberateTask proposals threshold dispute data)).success = false
    ∧ (DeliberationAgent.processTask agentId deliberationType now
        (deliberateTask proposals threshold dispute data)).result = none
    ∧ (DeliberationAgent.processTask agentId deliberationType now
        (deliberateTask proposals threshold dispute data)).error.isSome = true := by
  simp only [DeliberationAgent.processTask, deliberateTask, deliberate]
  split_ifs <;> simp [facilitateConsensus, resolveDispute, Except.map]

/-- The task `SwarmOrchestrator.buildConsensus` sends to the facilitator:
type 'build_consensus' with `{predictions, threshold: 0.8}` as data. -/
def buildConsensusTask (analysisResults : List AnalystPrediction) : DelibTask :=
  ⟨"build_consensus", none, none, none, some ⟨some analysisResults, some (4/5), none, none⟩⟩

/-- JavaScript truthiness of a possibly-absent boolean property. -/
def jsTruthy (b : Option Bool) : Bool := b.getD false

/-- The execute-stage guard of
`SwarmOrchestrator.processMarketPredictionTask`:
`executeMarketDecision` runs only `if (consensus.hasConsensus)`. -/
def executeStageInvoked (consensus : DelibTaskRecord) : Bool :=
  jsTruthy consensus.hasConsensus

/-- C3.  The consensus stage sends the facilitator a task of type
'build_consensus', which `DeliberationAgent.processTask` does not match,
so the returned record is `success:false` with no truthy `hasConsensus`
field, and the execute stage is never invoked. -/
theorem buildConsensus_never_triggers_execution (agentId deliberationType : String)
    (now : ℤ) (analysisResults : List AnalystPrediction) :
    (DeliberationAgent.processTask agentId deliberationType now
        (buildConsensusTask analysisResults)).success = false
    ∧ (DeliberationAgent.processTask agentId deliberationType now
        (buildConsensusTask analysisResults)).error = some "Unknown task type"
    ∧ (DeliberationAgent.processTask agentId deliberationType now
        (buildConsensusTask analysisResults)).hasConsensus = none
    ∧ executeStageInvoked (DeliberationAgent.processTask agentId deliberationType now
        (buildConsensusTask analysisResults)) = false := by
  simp [DeliberationAgent.processTask, buildConsensusTask, executeStageInvoked, jsTruthy]

/-- The `prediction` object read by `manageRisk`. -/
structure PredictionFields where
  confidence : Option ℚ

/-- The `marketData` object read by `manageRisk`. -/
structure MarketDataFields where
  volatility : Option ℚ

/-- The `transaction` object read by `protectFromMEV`. -/
structure TransactionFields where
  amount : Option ℚ

/-- The `marketConditions` object read by `protectFromMEV`. -/
structure MarketConditionsFields where
  liquidity : Option ℚ

/-- The payload object accessed as `task.data` by the Execution
handlers (duck-typed; any field may be absent). -/
structure ExecCallData where
  prediction : Option PredictionFields
  marketData : Option MarketDataFields
  sourceChain : Option String
  targetChain : Option String
  amount : Option ℚ
  operation : Option String
  transaction : Option TransactionFields
  marketConditions : Option MarketConditionsFields

/-- An argument object for the Execution handlers; its `data` property
may be absent. -/
structure ExecCallArg where
  data : Option ExecCallData

/-- The record `ExecutionAgent.manageRisk` resolves to (the
presentation-only `reasoning` string is not modelled). -/
structure RiskManagementRecord where
  agentId : String
  executionType : String
  timestamp : ℤ
  riskAssessment : RiskAssessment
  recommendation : RiskRecommendation
  confidence : ℚ

/-- `ExecutionAgent.manageRisk` in `Except`: destructuring `task.data`
throws when `data` is absent, and reading `prediction.confidence` /
`marketData.volatility` throws when the respective object is absent. -/
def manageRisk (agentId : String) (now : ℤ) (task : ExecCallArg) :
    Except String RiskManagementRecord :=
  match task.data with
  | none => Except.error "Cannot destructure property prediction of task.data"
  | some d =>
    match d.prediction with
    | none => Except.error "Cannot read properties of undefined reading confidence"
    | some prediction =>
      match d.marketData with
      | none => Except.error "Cannot read properties of undefined reading volatility"
      | some marketData =>
        let riskAssessment := assessRisk prediction.confidence marketData.volatility
        let recommendation := generateRiskRecommendation riskAssessment
        Except.ok
          { agentId := agentId
            executionType := "risk_management"
            timestamp := now
            riskAssessment := riskAssessment
            recommendation := recommendation
            confidence := riskAssessment.confidence }

/-- The `executionPlan` object built by `executeCrossChain`;
`feesTotal` is `fees.total = amount × 0.005`, `none` modelling the `NaN`
produced from an absent amount. -/
structure CrossChainPlan where
  sourceChain : Option String
  targetChain : Option String
  amount : Option ℚ
  operation : Option String
  bridge : String
  estimatedTime : ℚ
  feesTotal : Option ℚ

/-- The record `ExecutionAgent.executeCrossChain` resolves to. -/
structure CrossChainRecord where
  agentId : String
  executionType : String
  timestamp : ℤ
  executionPlan : CrossChainPlan
  confidence : ℚ
  status : String

/-- `ExecutionAgent.executeCrossChain` in `Except`: only the
destructuring of `task.data` can throw. -/
def executeCrossChain (agentId : String) (now : ℤ) (task : ExecCallArg) :
    Except String CrossChainRecord :=
  match task.data with
  | none => Except.error "Cannot destructure property sourceChain of task.data"
  | some d =>
    Except.ok
      { agentId := agentId
        executionType := "cross_chain"
        timestamp := now
        executionPlan :=
          { sourceChain := d.sourceChain
            targetChain := d.targetChain
            amount := d.amount
            operation := d.operation
            bridge := "Chainlink CCIP"
            estimatedTime := 15
            feesTotal := d.amount.map fun a => a * (5/1000) }
        confidence := 9/10
        status := "planned" }

/-- The assessment object returned by `ExecutionAgent.assessMEVRisk`. -/
structure MEVRisk where
  overall : ℚ
  slippage : ℚ
  riskLevel : String

/-- `ExecutionAgent.assessMEVRisk`:
`min(1, (amount || 0) / (liquidity || 1000000) * 100)`. -/
def assessMEVRisk (txAmount liquidity : Option ℚ) : MEVRisk :=
  let slippageRisk := min 1 (jsOrNum txAmount 0 / jsOrNum liquidity 1000000 * 100)
  let overall := slippageRisk
  { overall := overall
    slippage := slippageRisk
    riskLevel := if overall > 7/10 then "high" else if overall > 2/5 then "medium" else "low" }

/-- The strategy object returned by
`ExecutionAgent.selectProtectionStrategy`. -/
structure ProtectionStrategy where
  primary : String
  gasStrategy : String

/-- `ExecutionAgent.selectProtectionStrategy`. -/
def selectProtectionStrategy (mevRisk : MEVRisk) : ProtectionStrategy :=
  if mevRisk.riskLevel = "high" then
    { primary := "private_mempool", gasStrategy := "aggressive_gas" }
  else if mevRisk.riskLevel = "medium" then
    { primary := "split_transaction", gasStrategy := "standard_gas" }
  else { primary := "standard_protection", gasStrategy := "standard_gas" }

/-- The record `ExecutionAgent.protectFromMEV` resolves to. -/
structure MEVProtectionRecord where
  agentId : String
  executionType : String
  timestamp : ℤ
  mevRisk : MEVRisk
  protectionStrategy : ProtectionStrategy
  confidence : ℚ

/-- `ExecutionAgent.protectFromMEV` in `Except`. -/
def protectFromMEV (agentId : String) (now : ℤ) (task : ExecCallArg) :
    Except String MEVProtectionRecord :=
  match task.data with
  | none => Except.error "Cannot destructure property transaction of task.data"
  | some d =>
    match d.transaction with
    | none => Except.error "Cannot read properties of undefined reading amount"
    | some transaction =>
      match d.marketConditions with
      | none => Except.error "Cannot read properties of undefined reading liquidity"
      | some marketConditions =>
        let mevRisk := assessMEVRisk transaction.amount marketConditions.liquidity
        let protectionStrategy := selectProtectionStrategy mevRisk
        Except.ok
          { agentId := agentId
            executionType := "mev_protection"
            timestamp := now
            mevRisk := mevRisk
            protectionStrategy := protectionStrategy
            confidence := 17/20 }

/-- A successful execution outcome: one of the three handler records. -/
inductive ExecutionOutcome where
  | riskManagement (r : RiskManagementRecord)
  | crossChain (r : CrossChainRecord)
  | mevProtection (r : MEVProtectionRecord)

/-- `ExecutionAgent.execute`: dispatch on the agent's execution type;
an unknown type throws. -/
def ExecutionAgent.execute (agentId executionType : String) (now : ℤ)
    (details : ExecCallArg) : Except String ExecutionOutcome :=
  if executionType = "risk_manager" then
    (manageRisk agentId now details).map ExecutionOutcome.riskManagement
  else if executionType = "cross_chain" then
    (executeCrossChain agentId now details).map ExecutionOutcome.crossChain
  else if executionType = "mev_protector" then
    (protectFromMEV agentId now details).map ExecutionOutcome.mevProtection
  else Except.error ("Unknown execution type: " ++ executionType)

/-- A task as received by `ExecutionAgent.processTask`. -/
structure ExecTask where
  type : String
  tradeDetails : Option ExecCallArg
  riskData : Option ExecCallArg
  bridgeData : Option ExecCallArg

/-- The object `ExecutionAgent.processTask` returns to the orchestrator. -/
structure ExecTaskRecord where
  agentId : String
  taskType : String
  timestamp : ℤ
  success : Bool
  result : Option ExecutionOutcome := none
  error : Option String := none

/-- `ExecutionAgent.processTask`: dispatch on the task type inside
try/catch; absent argument objects default through `|| {}`. -/
def ExecutionAgent.processTask (agentId executionType : String) (now : ℤ)
    (task : ExecTask) : ExecTaskRecord :=
  if task.type = "execute_trade" then
    match ExecutionAgent.execute agentId executionType now (task.tradeDetails.getD ⟨none⟩) with
    | Except.ok r =>
      { agentId := agentId, taskType := "execution", timestamp := now,
        success := true, result := some r }
    | Except.error e =>
      { agentId := agentId, taskType := task.type, timestamp := now,
        success := false, error := some e }
  else if task.type = "manage_risk" then
    match (manageRisk agentId now (task.riskData.getD ⟨none⟩)).map
        ExecutionOutcome.riskManagement with
    | Except.ok r =>
      { agentId := agentId, taskType := "risk_management", timestamp := now,
        success := true, result := some r }
    | Except.error e =>
      { agentId := agentId, taskType := task.type, timestamp := now,
        success := false, error := some e }
  else if task.type = "cross_chain_bridge" then
    match (executeCrossChain agentId now (task.bridgeData.getD ⟨none⟩)).map
        ExecutionOutcome.crossChain with
    | Except.ok r =>
      { agentId := agentId, taskType := "cross_chain", timestamp := now,
        success := true, result := some r }
    | Except.error e =>
      { agentId := agentId, taskType := task.type, timestamp := now,
        success := false, error := some e }
  else
    { agentId := agentId, taskType := task.type, timestamp := now,
      success := false, error := some "Unknown task type" }

/-- One collected data item as seen by the Analyst dispatch (the
analyses discriminate on its `type` string). -/
structure CollectedItem where
  type : String
deriving DecidableEq

/-- The shapes `AnalystAgent.processTask` accepts for `task.data`: the
array itself, or an object with a `dataCollection` array, or an object
with a `marketData` value. -/
inductive AnalystTaskData where
  | arr (items : List CollectedItem)
  | obj (dataCollection : Option (List CollectedItem)) (marketData : Option CollectedItem)

/-- The data-array extraction at the top of the Analyst's
`analyze_data` branch: array → itself; `dataCollection` array → it;
else `marketData` → singleton; else the empty array. -/
def extractDataArray (d : Option AnalystTaskData) : List CollectedItem :=
  match d with
  | none => []
  | some (.arr items) => items
  | some (.obj (some coll) _) => coll
  | some (.obj none (some m)) => [m]
  | some (.obj none none) => []

/-- The four per-specialty analyses of `AnalystAgent` never throw (each
guards missing input and returns a neutral low-confidence object); only
which branch ran feeds the claims, so the analysis payload is
abstracted to its branch tag. -/
inductive AnalysisOutcome where
  | technical
  | fundamental
  | sentiment
  | correlation
deriving DecidableEq

/-- `AnalystAgent.analyzeData`: dispatch on the agent's analysis type;
an unknown type throws. -/
def analyzeData (analysisType : String) (data : List CollectedItem) :
    Except String AnalysisOutcome :=
  if analysisType = "technical" then Except.ok AnalysisOutcome.technical
  else if analysisType = "fundamental" then Except.ok AnalysisOutcome.fundamental
  else if analysisType = "sentiment" then Except.ok AnalysisOutcome.sentiment
  else if analysisType = "correlation" then Except.ok AnalysisOutcome.correlation
  else Except.error ("Unknown analysis type: " ++ analysisType)

/-- A task as received by `AnalystAgent.processTask`. -/
structure AnalystTask where
  type : String
  data : Option AnalystTaskData

/-- The object `AnalystAgent.processTask` returns to the orchestrator. -/
structure AnalystTaskRecord where
  agentId : String
  taskType : String
  timestamp : ℤ
  success : Bool
  analysis : Option AnalysisOutcome := none
  error : Option String := none

/-- `AnalystAgent.processTask`: the `analyze_data` branch inside
try/catch, plus the unknown-task-type default. -/
def AnalystAgent.processTask (agentId analysisType : String) (now : ℤ)
    (task : AnalystTask) : AnalystTaskRecord :=
  if task.type = "analyze_data" then
    match analyzeData analysisType (extractDataArray task.data) with
    | Except.ok a =>
      { agentId := agentId, taskType := "analysis", timestamp := now,
        success := true, analysis := some a }
    | Except.error e =>
      { agentId := agentId, taskType := task.type, timestamp := now,
        success := false, error := some e }
  else
    { agentId := agentId, taskType := task.type, timestamp := now,
      success := false, error := some "Unknown task type" }

/-- C5.  Every task given to `ExecutionAgent.processTask` or
`AnalystAgent.processTask` — unknown task types and internally-throwing
handlers included — produces a normal Result carrying the agent id, the
timestamp and an explicit success flag: success with a payload and no
error, or failure with a string error. -/
theorem processTask_total_explicit_success :
    (∀ (agentId executionType : String) (now : ℤ) (task : ExecTask),
      (ExecutionAgent.processTask agentId executionType now task).agentId = agentId
      ∧ (ExecutionAgent.processTask agentId executionType now task).timestamp = now
      ∧ (((ExecutionAgent.processTask agentId executionType now task).success = true
          ∧ (ExecutionAgent.processTask agentId executionType now task).error = none
          ∧ (ExecutionAgent.processTask agentId executionType now task).result.isSome = true)
        ∨ ((ExecutionAgent.processTask agentId executionType now task).success = false
          ∧ (ExecutionAgent.processTask agentId executionType now task).error.isSome = true)))
    ∧ (∀ (agentId analysisType : String) (now : ℤ) (task : AnalystTask),
      (AnalystAgent.processTask agentId analysisType now task).agentId = agentId
      ∧ (AnalystAgent.processTask agentId analysisType now task).timestamp = now
      ∧ (((AnalystAgent.processTask agentId analysisType now task).success = true
          ∧ (AnalystAgent.processTask agentId analysisType now task).error = none
          ∧ (AnalystAgent.processTask agentId analysisType now task).analysis.isSome = true)
        ∨ ((AnalystAgent.processTask agentId analysisType now task).success = false
          ∧ (AnalystAgent.processTask agentId analysisType now task).error.isSome = true))) := by
  constructor
  · intro agentId executionType now task
    unfold ExecutionAgent.processTask
    split_ifs with h1 h2 h3
    · cases hx : ExecutionAgent.execute agentId executionType now
        (task.tradeDetails.getD ⟨none⟩) <;> simp
    · cases hx : (manageRisk agentId now (task.riskData.getD ⟨none⟩)).map
        ExecutionOutcome.riskManagement <;> simp
    · cases hx : (executeCrossChain agentId now (task.bridgeData.getD ⟨none⟩)).map
        ExecutionOutcome.crossChain <;> simp
    · simp
  · intro agentId analysisType now task
    unfold AnalystAgent.processTask
    split_ifs with h1
    · cases hx : analyzeData analysisType (extractDataArray task.data) <;> simp
    · simp

end SwarmOracle
